/-
  Verification of excerpted OpenVINO plugin code against its natural-language
  specification.  Each C++ function relevant to the claims is shallowly
  embedded as an executable Lean definition; machine integers are modelled as
  Nat/Int, C++ exceptions as explicit error results paired with the state the
  object is left in, and calls into code outside the excerpt as oracle
  parameters.
-/
import Mathlib

namespace KernelSelector

/-- Two-dimensional size used for `filterSize` and `stride` (`uSize` in kernel_selector). -/
structure USize2 where
  x : Nat
  y : Nat
deriving DecidableEq, Repr

/-- The fields of `convolution_params` read by
`ConvolutionKernel_b_fs_yx_fsv4_int8::Validate` and `GetKernelsPriority`:
`inputs[0].X().v`, `inputs[0].Feature().v`, `output.X().v`,
`output.Feature().v`, `output.Batch().v`, `filterSize`, `stride`. -/
structure ConvolutionParams where
  inputX : Nat
  inputFeature : Nat
  outputX : Nat
  outputFeature : Nat
  outputBatch : Nat
  filterSize : USize2
  stride : USize2
deriving DecidableEq, Repr

/-- Model of `optional_params`: opaque to the kernels modelled here; carried as a bag of
data so that independence from it is expressible. -/
structure OptionalParams where
  data : Nat
deriving DecidableEq, Repr

/-- The `KernelsPriority` constant `FORCE_PRIORITY_2`. -/
def FORCE_PRIORITY_2 : Nat := 2

/-- The `KernelsPriority` constant `FORCE_PRIORITY_9`. -/
def FORCE_PRIORITY_9 : Nat := 9

/-- Embedding of `ConvolutionKernel_b_fs_yx_fsv4_int8::Validate`.  The base-class checks
`ConvolutionKernelBase::Validate(p, o) && ConvolutionCheckInput(p, o)` live
outside the excerpt and enter as the oracle `baseOk`. -/
def fsv4_int8_Validate (baseOk : Bool) (params : ConvolutionParams) : Bool :=
  if !baseOk then
    false
  else if params.inputX % 64 != 0 then
    false
  else
    let bFilterSize :=
      (params.filterSize.x == 5 && params.filterSize.y == 5) ||
      (params.filterSize.x == 3 && params.filterSize.y == 3 && params.inputFeature % 4 == 0) ||
      (params.filterSize.x == 1 && params.filterSize.y == 1)
    let bStride := params.stride.x == 1 && params.stride.y == 1
    if !bFilterSize || !bStride || params.outputFeature % 4 != 0 || params.outputBatch != 1 then
      false
    else
      true

/-- Embedding of `ConvolutionKernel_b_fs_yx_fsv4_int8::GetKernelsPriority`; the
`optional_params` argument is received but never read. -/
def fsv4_int8_GetKernelsPriority (params : ConvolutionParams) (_options : OptionalParams) : Nat :=
  if params.outputX > 512 && params.filterSize.x == 5 && params.filterSize.y == 5 then
    FORCE_PRIORITY_2
  else
    FORCE_PRIORITY_9

/-- The `workGroups` of a `clKernelData`: `global` and `local` are 3-element
size vectors. -/
structure WorkGroups where
  wgGlobal : List Nat
  wgLocal : List Nat
deriving DecidableEq, Repr

/-- One kernel of a `KernelData`; every field other than the work-group sizes
(kernel string, arguments, entry point, ...) is bundled opaquely in `rest`. -/
structure KernelM where
  workGroups : WorkGroups
  rest : Nat
deriving DecidableEq, Repr

/-- One entry of `KernelsData`; fields other than `kernels` are bundled in
`kdRest`. -/
structure KernelsDataEntry where
  kernels : List KernelM
  kdRest : Nat
deriving DecidableEq, Repr

/-- The function `Align(size, align)` from kernel_selector's common tools:
`(size % align == 0) ? size : size - size % align + align`. -/
def Align (size a : Nat) : Nat :=
  if size % a == 0 then size else size - size % a + a

/-- The per-kernel adjustment inside `ConcatenationKernelRef::GetKernelsData`:
when `local[0] == 1 && global[1] != 1`, round `global[1]` up to a multiple of
32 and set `local[1] = 32`. -/
def concatRefAdjustKernel (kernel : KernelM) : KernelM :=
  if kernel.workGroups.wgLocal.getD 0 0 == 1 && kernel.workGroups.wgGlobal.getD 1 0 != 1 then
    { kernel with
        workGroups :=
          { wgGlobal := kernel.workGroups.wgGlobal.set 1
              (Align (kernel.workGroups.wgGlobal.getD 1 0) 32),
            wgLocal := kernel.workGroups.wgLocal.set 1 32 } }
  else
    kernel

/-- Embedding of `ConcatenationKernelRef::GetKernelsData`, applied to the `KernelsData`
returned by `GetCommonKernelsData` (an oracle input `kd`): if `kd` is
non-empty, every kernel of `kd[0]` is adjusted in place. -/
def concatRefGetKernelsData (kd : List KernelsDataEntry) : List KernelsDataEntry :=
  match kd with
  | [] => []
  | k0 :: tl => { k0 with kernels := k0.kernels.map concatRefAdjustKernel } :: tl

end KernelSelector

namespace MkldnnReshape

/-- The dynamic type of an ngraph node, as far as
`MKLDNNReshapeNode::isSupportedOperation` discriminates it by
`dynamic_pointer_cast`. -/
inductive NgraphOpKind
  | reshape1
  | squeeze1
  | unsqueeze1
  | other
deriving DecidableEq, Repr

/-- An ngraph node: its dynamic type and whether `isDynamicNgraphNode` holds. -/
structure NgraphOp where
  kind : NgraphOpKind
  isDynamic : Bool
deriving DecidableEq, Repr

/-- Embedding of `MKLDNNReshapeNode::isSupportedOperation`.  The C++ takes `errorMessage`
by reference; the embedding threads it: the result is the returned Bool paired
with the message left in `errorMessage`. -/
def isSupportedOperation (op : NgraphOp) (errorMessage : String) : Bool × String :=
  if op.isDynamic then
    (false, "Doesn't support op with dynamic shapes")
  else if op.kind != NgraphOpKind.reshape1 && op.kind != NgraphOpKind.squeeze1 &&
      op.kind != NgraphOpKind.unsqueeze1 then
    (false, "Only opset1 Reshape, Squeeze, Unsqueeze operations are supported")
  else
    (true, errorMessage)

/-- The `mkldnn::memory::format_tag` values occurring in
`MKLDNNReshapeNode::getDataFormats`. -/
inductive FormatTag
  | a
  | ab
  | ba
  | abc
  | acb
  | abcd
  | acdb
  | abcde
  | abcdef
  | undef
deriving DecidableEq, Repr

/-- Embedding of `MKLDNNReshapeNode::getDataFormats`.  The switch's misspelled `defalut:`
label is an unreachable goto label, so unmatched `ndims` values fall out of
the switch to the trailing `return {memory::format_tag::undef};`. -/
def getDataFormats (ndims : Int) : List FormatTag :=
  if ndims = 1 then [FormatTag.a]
  else if ndims = 2 then [FormatTag.ab, FormatTag.ba]
  else if ndims = 3 then [FormatTag.abc, FormatTag.acb]
  else if ndims = 4 then [FormatTag.abcd, FormatTag.acdb]
  else if ndims = 5 then [FormatTag.abcde]
  else if ndims = 6 then [FormatTag.abcdef]
  else [FormatTag.undef]

end MkldnnReshape

namespace InferRequest

/-- The error categories produced by `IE_THROW(...)`; `general` is the
default-status `IE_THROW()`. -/
inductive IEErr
  | notFound
  | notAllocated
  | parameterMismatch
  | notImplemented
  | general
deriving DecidableEq, Repr

/-- The `Config` fields of the graph property read by the request code. -/
structure GraphProperty where
  enableDynamicBatch : Bool
  batchLimit : Int
deriving DecidableEq, Repr

/-- Request/graph state touched by `LegacyInferRequest::SetBatch`: the member
`m_curBatch` and, per graph node, the dynamic batch limit written by
`setDynamicBatchLim`. -/
structure BatchState where
  m_curBatch : Int
  nodeDynBatchLims : List Int
deriving DecidableEq, Repr

/-- Embedding of `LegacyInferRequest::SetBatch`.  A thrown exception is modelled as
`(some err, st)` where `st` is the state the request is left in. -/
def legacySetBatch (prop : GraphProperty) (st : BatchState) (new_batch : Int) :
    Option IEErr × BatchState :=
  if !prop.enableDynamicBatch then
    (some IEErr.general, st)
  else if new_batch < 1 || new_batch > prop.batchLimit then
    (some IEErr.general, st)
  else
    (none, { m_curBatch := new_batch,
             nodeDynBatchLims := st.nodeDynBatchLims.map (fun _ => new_batch) })

/-- The operations of a request's lifetime that exist in the excerpt, grouped
by their effect on `ExecNetwork::_numRequests`: `create` is
`InferRequestBase::CreateInferRequest` (runs `(execNetwork->_numRequests)++`
once), `destroy` is `InferRequestBase::~InferRequestBase` (runs
`--(execNetwork->_numRequests)`), and `otherOp` stands for every other member
function of the request (none of which mentions `_numRequests`). -/
inductive ReqEvent
  | create
  | destroy
  | otherOp
deriving DecidableEq, Repr

/-- Effect of one lifecycle event on `_numRequests`. -/
def numRequestsStep (c : Int) : ReqEvent → Int
  | ReqEvent.create => c + 1
  | ReqEvent.destroy => c - 1
  | ReqEvent.otherOp => c

/-- Value of `_numRequests` after a sequence of lifecycle events. -/
def runNumRequests (c : Int) : List ReqEvent → Int
  | [] => c
  | e :: tl => runNumRequests (numRequestsStep c e) tl

/-- The number of requests alive after a sequence of events (each `destroy`
destroys one previously constructed, still-alive request). -/
def aliveAfter (a : Nat) : List ReqEvent → Nat
  | [] => a
  | ReqEvent.create :: tl => aliveAfter (a + 1) tl
  | ReqEvent.destroy :: tl => aliveAfter (a - 1) tl
  | ReqEvent.otherOp :: tl => aliveAfter a tl

/-- A destructor only ever runs on a live request: starting from `a` live
requests, every `destroy` finds at least one alive. -/
def validEvents (a : Nat) : List ReqEvent → Bool
  | [] => true
  | ReqEvent.create :: tl => validEvents (a + 1) tl
  | ReqEvent.destroy :: tl => decide (0 < a) && validEvents (a - 1) tl
  | ReqEvent.otherOp :: tl => validEvents a tl

/-- The `InferenceEngine::Layout` values the request code compares against. -/
inductive LayoutM
  | ANY
  | SCALAR
  | NCHW
  | NHWC
deriving DecidableEq, Repr

/-- An `InferenceEngine::TensorDesc`: precision, dims, layout, and the
blocking descriptor (opaquely, by identity). -/
structure TensorDescM where
  precision : Nat
  dims : List Nat
  layout : LayoutM
  blocking : Nat
deriving DecidableEq, Repr

/-- An `InferenceEngine::Blob`: whether it `is<CompoundBlob>`, its buffer
pointer (`none` = null), its element count `size()`, its tensor descriptor
and its element contents. -/
structure BlobM where
  isCompound : Bool
  buffer : Option Nat
  blobSize : Nat
  desc : TensorDescM
  content : List Int
deriving DecidableEq, Repr

/-- Model of `make_blob_with_precision(TensorDesc(prec, dims, layout))` followed by
`allocate()`: a non-compound memory blob over the given descriptor whose
element count is the dim product; `allocBuf` is the buffer the allocator
produced (`none` = allocation yielded no memory). -/
def makeBlobWithPrecision (desc : TensorDescM) (allocBuf : Option Nat) : BlobM :=
  { isCompound := false
    buffer := allocBuf
    blobSize := desc.dims.prod
    desc := desc
    content := [] }

/-- Embedding of `InferRequestBase::pushInput`.  Oracles for calls outside the excerpt:
`conv srcPrec dstPrec` is the element map of `cpu_convert`, `allocBuf` the
buffer `iconv->allocate()` obtains.  On success the result is the blob handed
to `graph->PushInputData`. -/
def pushInput (conv : Nat → Nat → Int → Int) (allocBuf : Option Nat)
    (inputBlob : BlobM) (inPrec : Nat) : Except IEErr BlobM :=
  let tensorDesc := inputBlob.desc
  let needConvert := inPrec ≠ tensorDesc.precision
  if inputBlob.buffer = none then
    Except.error IEErr.general
  else if needConvert then
    let iconv := makeBlobWithPrecision
      { precision := inPrec, dims := tensorDesc.dims, layout := tensorDesc.layout,
        blocking := tensorDesc.blocking } allocBuf
    if inputBlob.blobSize ≠ iconv.blobSize then
      Except.error IEErr.general
    else if iconv.buffer = none then
      Except.error IEErr.general
    else
      Except.ok { iconv with
        content := (inputBlob.content.take iconv.blobSize).map
          (conv tensorDesc.precision inPrec) }
  else
    Except.ok inputBlob

/-- Node types `changeDefaultPtr` discriminates on. -/
inductive NodeType
  | Concatenation
  | Split
  | otherType
deriving DecidableEq, Repr

/-- A child of a graph input node, with the predicates `changeDefaultPtr`
queries and the memory data pointers of the child's own child edges. -/
structure ChildNode where
  isConstant : Bool
  typ : NodeType
  isOptimized : Bool
  isInPlace : Bool
  childEdgeMems : List Nat
deriving DecidableEq, Repr

/-- A child edge of an input node: the memory data handle it carries and the
child node it leads to. -/
structure ChildEdge where
  mem : Nat
  child : ChildNode
deriving DecidableEq, Repr

/-- A graph input node, reduced to its child edges. -/
structure InputNode where
  childEdges : List ChildEdge
deriving DecidableEq, Repr

/-- One iteration of the child scan in `InferRequestBase::changeDefaultPtr`:
the conditions under which a child edge forces `canBeInPlace = false`
(constant child, optimized Concat, Split, in-place child, or a child output
edge whose memory data coincides with this edge's). -/
def childBlocksInPlace (ce : ChildEdge) : Bool :=
  ce.child.isConstant ||
  (ce.child.typ == NodeType.Concatenation && ce.child.isOptimized) ||
  (ce.child.typ == NodeType.Split) ||
  ce.child.isInPlace ||
  ce.child.childEdgeMems.any (fun m => m == ce.mem)

/-- The input-node branch of `InferRequestBase::changeDefaultPtr` for one
`externalPtr` entry resolving to input node `n` with user pointer `ptr`:
skip when the first child edge already holds `ptr`; otherwise redirect every
child edge's data handle to `ptr` exactly when no child blocks in-place use. -/
def changeDefaultPtrInput (n : InputNode) (ptr : Nat) : InputNode :=
  match n.childEdges with
  | [] => n
  | e0 :: _ =>
    if e0.mem == ptr then n
    else if n.childEdges.all (fun ce => !(childBlocksInPlace ce)) then
      { childEdges := n.childEdges.map (fun ce => { ce with mem := ptr }) }
    else n

/-- Association-list lookup modelling `std::map::find`. -/
def alistFind {α : Type} (m : List (String × α)) (k : String) : Option α :=
  match m with
  | [] => none
  | (k', v) :: tl => if k' = k then some v else alistFind tl k

/-- Association-list write modelling `std::map::operator[] =`. -/
def alistInsert {α : Type} (m : List (String × α)) (k : String) (v : α) :
    List (String × α) :=
  match m with
  | [] => [(k, v)]
  | (k', v') :: tl => if k' = k then (k, v) :: tl else (k', v') :: alistInsert tl k v

/-- Association-list removal modelling `std::map::erase`. -/
def alistErase {α : Type} (m : List (String × α)) (k : String) : List (String × α) :=
  m.filter (fun p => p.1 != k)

/-- Test modelling `std::map::find(k) != end()`. -/
def alistHas {α : Type} (m : List (String × α)) (k : String) : Bool :=
  (alistFind m k).isSome

/-- The request members `LegacyInferRequest::SetBlob` can modify:
`_inputs`, `_outputs`, `externalPtr` (name ↦ buffer pointer) and
`_preProcData` (name ↦ helper, holding the ROI blob once set). -/
structure ReqState where
  inputs : List (String × BlobM)
  outputs : List (String × BlobM)
  externalPtr : List (String × Nat)
  preProcData : List (String × Option BlobM)
deriving DecidableEq, Repr

/-- Oracles for the calls `LegacyInferRequest::SetBlob` makes into code
outside the excerpt: the outcome of `findInputAndOutputBlobByName` (found
input's / output's tensor descriptor), `preProcessingRequired`, whether
`isApplicable` throws, the descriptors `MemoryDescUtils::interpretAsBlob`
yields for the input/output node memory (`none` = null blob), whether
`graph->_normalizePreprocMap` contains the name, and
`graph->getProperty().batchLimit`. -/
structure SetBlobEnv where
  findResult : Except IEErr (Option TensorDescM × Option TensorDescM)
  preProcRequired : Bool
  preProcApplicable : Option IEErr
  pBlobInDesc : Option TensorDescM
  pBlobOutDesc : Option TensorDescM
  normalizePreprocHasName : Bool
  batchLimit : Int
deriving Repr

/-- The `foundInput` branch of `LegacyInferRequest::SetBlob` (source lines
395-446): precision check, compound/pre-processing handling, size, dims and
blocking-descriptor checks, then the `externalPtr` update and `_inputs`
write. -/
def legacySetBlobInput (env : SetBlobEnv) (st : ReqState) (name : String)
    (b : BlobM) (fin : TensorDescM) : Option IEErr × ReqState :=
  if fin.precision ≠ b.desc.precision then
    (some IEErr.parameterMismatch, st)
  else if b.isCompound = true ∧ env.preProcRequired = false then
    (some IEErr.notImplemented, st)
  else if env.preProcRequired then
    let st1 := if alistHas st.preProcData name then st
               else { st with preProcData := alistInsert st.preProcData name none }
    match env.preProcApplicable with
    | some e => (some e, st1)
    | none => (none, { st1 with preProcData := alistInsert st1.preProcData name (some b) })
  else
    let inputSize := if fin.layout ≠ LayoutM.SCALAR then fin.dims.prod else 1
    if b.blobSize ≠ inputSize then
      (some IEErr.general, st)
    else if fin.dims ≠ b.desc.dims then
      (some IEErr.parameterMismatch, st)
    else if b.desc.layout ≠ LayoutM.ANY ∧ fin.layout ≠ LayoutM.ANY ∧
        fin.blocking ≠ b.desc.blocking then
      (some IEErr.parameterMismatch, st)
    else
      match env.pBlobInDesc with
      | none => (some IEErr.general, st)
      | some pdesc =>
        let st1 :=
          if b.desc = pdesc ∧ env.normalizePreprocHasName = false ∧ env.batchLimit = 0 then
            { st with externalPtr := alistInsert st.externalPtr name (b.buffer.getD 0) }
          else if alistHas st.externalPtr name then
            { st with externalPtr := alistErase st.externalPtr name }
          else st
        (none, { st1 with inputs := alistInsert st1.inputs name b })

/-- The `foundOutput` branch of `LegacyInferRequest::SetBlob` (source lines
447-482). -/
def legacySetBlobOutput (env : SetBlobEnv) (st : ReqState) (name : String)
    (b : BlobM) (fout : TensorDescM) : Option IEErr × ReqState :=
  if b.isCompound then
    (some IEErr.notImplemented, st)
  else if fout.precision ≠ b.desc.precision then
    (some IEErr.parameterMismatch, st)
  else
    let outputSize := if fout.layout ≠ LayoutM.SCALAR then fout.dims.prod else 1
    if b.blobSize ≠ outputSize then
      (some IEErr.general, st)
    else if fout.dims ≠ b.desc.dims then
      (some IEErr.parameterMismatch, st)
    else if b.desc.layout ≠ LayoutM.ANY ∧ fout.layout ≠ LayoutM.ANY ∧
        fout.blocking ≠ b.desc.blocking then
      (some IEErr.parameterMismatch, st)
    else
      match env.pBlobOutDesc with
      | none => (some IEErr.general, st)
      | some pdesc =>
        let st1 :=
          if b.desc = pdesc ∧ env.batchLimit = 0 then
            { st with externalPtr := alistInsert st.externalPtr name (b.buffer.getD 0) }
          else if alistHas st.externalPtr name then
            { st with externalPtr := alistErase st.externalPtr name }
          else st
        (none, { st1 with outputs := alistInsert st1.outputs name b })

/-- Embedding of `LegacyInferRequest::SetBlob`.  A thrown exception is `(some err, st)`
with `st` the state the request is left in at the throw. -/
def legacySetBlob (env : SetBlobEnv) (st : ReqState) (name : String)
    (data : Option BlobM) : Option IEErr × ReqState :=
  if name = "" then
    (some IEErr.notFound, st)
  else
    match data with
    | none => (some IEErr.notAllocated, st)
    | some b =>
      if b.isCompound = false ∧ b.buffer = none then
        (some IEErr.notAllocated, st)
      else if b.blobSize = 0 then
        (some IEErr.general, st)
      else
        match env.findResult with
        | Except.error e => (some e, st)
        | Except.ok (fi, fo) =>
          let afterIn : Option IEErr × ReqState :=
            match fi with
            | some fin => legacySetBlobInput env st name b fin
            | none => (none, st)
          match afterIn with
          | (some e, st') => (some e, st')
          | (none, st') =>
            match fo with
            | some fout => legacySetBlobOutput env st' name b fout
            | none => (none, st')

end InferRequest

open KernelSelector MkldnnReshape InferRequest

/-- C1: for every convolution parameter set passing the base-class checks,
`ConvolutionKernel_b_fs_yx_fsv4_int8::Validate` returns true iff the input X
dimension is divisible by 64, the stride is 1x1, the output feature count is
divisible by 4, the output batch is 1, and the filter is 5x5, or 1x1, or 3x3
with the input feature count divisible by 4. -/
theorem C1_fsv4_int8_Validate_iff (baseOk : Bool) (p : ConvolutionParams)
    (h : baseOk = true) :
    fsv4_int8_Validate baseOk p = true ↔
      (p.inputX % 64 = 0 ∧ p.stride.x = 1 ∧ p.stride.y = 1 ∧
       p.outputFeature % 4 = 0 ∧ p.outputBatch = 1 ∧
       ((p.filterSize.x = 5 ∧ p.filterSize.y = 5) ∨
        (p.filterSize.x = 1 ∧ p.filterSize.y = 1) ∨
        (p.filterSize.x = 3 ∧ p.filterSize.y = 3 ∧ p.inputFeature % 4 = 0))) := by
  subst h
  simp only [fsv4_int8_Validate, Bool.not_true, Bool.false_eq_true, if_false,
    Bool.or_eq_true, Bool.and_eq_true, Bool.not_eq_true', beq_iff_eq, bne_iff_ne, ne_eq]
  split_ifs with h1 h2 <;> simp_all <;> tauto

/-- Witness for C1 at a concrete parameter set with base checks passing. -/
theorem C1_witness :
    fsv4_int8_Validate true
        { inputX := 64, inputFeature := 4, outputX := 0, outputFeature := 4,
          outputBatch := 1, filterSize := { x := 1, y := 1 },
          stride := { x := 1, y := 1 } } = true :=
  (C1_fsv4_int8_Validate_iff true _ rfl).mpr (by decide)

/-- C7: `ConvolutionKernel_b_fs_yx_fsv4_int8::GetKernelsPriority` returns
`FORCE_PRIORITY_2` when the output X dimension exceeds 512 and the filter is
5x5, `FORCE_PRIORITY_9` in every other case, and the options argument never
influences the result. -/
theorem C7_fsv4_int8_GetKernelsPriority (p : ConvolutionParams) (o o' : OptionalParams) :
    ((512 < p.outputX ∧ p.filterSize.x = 5 ∧ p.filterSize.y = 5) →
       fsv4_int8_GetKernelsPriority p o = FORCE_PRIORITY_2) ∧
    (¬(512 < p.outputX ∧ p.filterSize.x = 5 ∧ p.filterSize.y = 5) →
       fsv4_int8_GetKernelsPriority p o = FORCE_PRIORITY_9) ∧
    fsv4_int8_GetKernelsPriority p o = fsv4_int8_GetKernelsPriority p o' := by
  refine ⟨?_, ?_, rfl⟩
  · rintro ⟨hx, h5, h5'⟩
    simp [fsv4_int8_GetKernelsPriority, hx, h5, h5']
  · intro hne
    simp only [fsv4_int8_GetKernelsPriority, Bool.and_eq_true, beq_iff_eq,
      decide_eq_true_eq, gt_iff_lt]
    rw [if_neg]
    simp only [Bool.and_eq_true, beq_iff_eq, decide_eq_true_eq, not_and]
    intro hx h5
    exact hne ⟨hx.1, hx.2, h5⟩

/-- C8: for every `ndims` outside 1..6, `MKLDNNReshapeNode::getDataFormats`
returns the single-element list `{memory::format_tag::undef}`: the misspelled
`defalut:` label is unreachable, but the return after the switch makes the
function total with result `{undef}` on all unmatched inputs. -/
theorem C8_getDataFormats_unmatched (ndims : Int) (h : ndims < 1 ∨ 6 < ndims) :
    getDataFormats ndims = [FormatTag.undef] := by
  unfold getDataFormats
  rw [if_neg (by omega), if_neg (by omega), if_neg (by omega), if_neg (by omega),
    if_neg (by omega), if_neg (by omega)]

/-- Witness for C8 at `ndims = 7`. -/
theorem C8_witness : getDataFormats 7 = [FormatTag.undef] :=
  C8_getDataFormats_unmatched 7 (by decide)

/-- C2: `MKLDNNReshapeNode::isSupportedOperation` returns true iff the op has
no dynamic shapes and is an opset1 Reshape, Squeeze or Unsqueeze; whenever it
returns false from one of those two checks, the message left in
`errorMessage` is non-empty.  (The embedding is a total function: the C++
catch-all that turns any internal exception into `false` leaves no other
outcome.) -/
theorem C2_isSupportedOperation (op : NgraphOp) (msg : String) :
    ((isSupportedOperation op msg).1 = true ↔
      (op.isDynamic = false ∧
       (op.kind = NgraphOpKind.reshape1 ∨ op.kind = NgraphOpKind.squeeze1 ∨
        op.kind = NgraphOpKind.unsqueeze1))) ∧
    ((isSupportedOperation op msg).1 = false → (isSupportedOperation op msg).2 ≠ "") := by
  obtain ⟨k, d⟩ := op
  cases d <;> cases k <;> simp [isSupportedOperation]

/-- C3: `LegacyInferRequest::SetBatch` throws iff dynamic batch is not
enabled, or `new_batch < 1`, or `new_batch` exceeds the graph's `batchLimit`;
and whenever it throws, `m_curBatch` and every node's dynamic batch limit are
unchanged. -/
theorem C3_legacySetBatch (prop : GraphProperty) (st : BatchState) (nb : Int) :
    ((legacySetBatch prop st nb).1.isSome ↔
      (prop.enableDynamicBatch = false ∨ nb < 1 ∨ prop.batchLimit < nb)) ∧
    ((legacySetBatch prop st nb).1.isSome → (legacySetBatch prop st nb).2 = st) := by
  unfold legacySetBatch
  cases hE : prop.enableDynamicBatch with
  | false => simp
  | true =>
    by_cases h1 : nb < 1
    · simp [h1]
    · by_cases h2 : prop.batchLimit < nb
      · simp [h1, h2]
      · simp [h1, h2, not_lt.mp h2]

/-- C5: `InferRequestBase::pushInput` pushes the original blob unchanged when
its precision already equals `inPrec`; otherwise it pushes a freshly
allocated blob of precision `inPrec` with the same dims and layout, filled by
element-wise conversion; and it throws exactly when the source buffer is
null, or (converting) the element counts differ or the converted buffer is
null. -/
theorem C5_pushInput (conv : Nat → Nat → Int → Int) (allocBuf : Option Nat)
    (b : BlobM) (inPrec : Nat) :
    (b.buffer ≠ none → inPrec = b.desc.precision →
       pushInput conv allocBuf b inPrec = Except.ok b) ∧
    (∀ c, inPrec ≠ b.desc.precision → pushInput conv allocBuf b inPrec = Except.ok c →
       (c.desc.precision = inPrec ∧ c.desc.dims = b.desc.dims ∧
        c.desc.layout = b.desc.layout ∧ c.buffer = allocBuf ∧
        c.isCompound = false ∧ c.blobSize = b.desc.dims.prod ∧
        c.content = (b.content.take b.desc.dims.prod).map
          (conv b.desc.precision inPrec))) ∧
    ((∃ e, pushInput conv allocBuf b inPrec = Except.error e) ↔
       (b.buffer = none ∨ (inPrec ≠ b.desc.precision ∧
          (b.blobSize ≠ b.desc.dims.prod ∨ allocBuf = none)))) := by
  refine ⟨?_, ?_, ?_⟩
  · intro hbuf hprec
    simp [pushInput, hprec, hbuf]
  · intro c hprec hok
    by_cases hbuf : b.buffer = none
    · simp [pushInput, hbuf] at hok
    · by_cases hsz : b.blobSize = b.desc.dims.prod
      · by_cases halloc : allocBuf = none
        · simp [pushInput, makeBlobWithPrecision, hbuf, hprec, hsz, halloc] at hok
        · simp only [pushInput, makeBlobWithPrecision, hbuf, if_false, ite_not,
            if_neg hprec, hsz, halloc, ite_eq_right_iff, reduceCtorEq,
            if_neg (show ¬b.desc.dims.prod ≠ b.desc.dims.prod by simp),
            Except.ok.injEq] at hok
          subst hok
          simp
      · simp [pushInput, makeBlobWithPrecision, hbuf, hprec, hsz] at hok
  · unfold pushInput
    by_cases hbuf : b.buffer = none
    · simp [hbuf]
    · by_cases hprec : inPrec = b.desc.precision
      · simp [hbuf, hprec]
      · by_cases hsz : b.blobSize = b.desc.dims.prod
        · by_cases halloc : allocBuf = none
          · simp [hbuf, hprec, hsz, halloc, makeBlobWithPrecision]
          · simp [hbuf, hprec, hsz, halloc, makeBlobWithPrecision]
        · simp [hbuf, hprec, hsz, makeBlobWithPrecision]

/-- C6: in `ConcatenationKernelRef::GetKernelsData`, every kernel of the
first entry of the data returned by `GetCommonKernelsData` whose
`local[0] = 1` and `global[1] ≠ 1` gets `local[1] = 32` and `global[1]`
rounded up to a multiple of 32; every other kernel, every other field, and
every other entry is unchanged. -/
theorem C6_concatRefGetKernelsData (kd : List KernelsDataEntry) :
    (concatRefGetKernelsData ([] : List KernelsDataEntry) = []) ∧
    (∀ k0 tl, kd = k0 :: tl →
       concatRefGetKernelsData kd =
         { k0 with kernels := k0.kernels.map concatRefAdjustKernel } :: tl) ∧
    (∀ k : KernelM,
       ((k.workGroups.wgLocal.getD 0 0 = 1 ∧ k.workGroups.wgGlobal.getD 1 0 ≠ 1) →
          concatRefAdjustKernel k =
            { k with workGroups :=
                { wgGlobal := k.workGroups.wgGlobal.set 1
                    (Align (k.workGroups.wgGlobal.getD 1 0) 32),
                  wgLocal := k.workGroups.wgLocal.set 1 32 } }) ∧
       (¬(k.workGroups.wgLocal.getD 0 0 = 1 ∧ k.workGroups.wgGlobal.getD 1 0 ≠ 1) →
          concatRefAdjustKernel k = k)) ∧
    (∀ v : Nat, 32 ∣ Align v 32 ∧ v ≤ Align v 32 ∧ Align v 32 < v + 32) := by
  refine ⟨rfl, ?_, ?_, ?_⟩
  · intro k0 tl h
    subst h
    rfl
  · intro k
    constructor
    · rintro ⟨h1, h2⟩
      unfold concatRefAdjustKernel
      rw [if_pos (show (k.workGroups.wgLocal.getD 0 0 == 1 &&
          k.workGroups.wgGlobal.getD 1 0 != 1) = true by
        simp only [Bool.and_eq_true, beq_iff_eq, bne_iff_ne, ne_eq]
        exact ⟨h1, h2⟩)]
    · intro hne
      unfold concatRefAdjustKernel
      rw [if_neg]
      simp only [Bool.and_eq_true, beq_iff_eq, bne_iff_ne, ne_eq, not_and]
      intro h1 h2
      exact hne ⟨h1, h2⟩
  · intro v
    unfold Align
    by_cases hm : v % 32 = 0
    · simp only [hm, beq_self_eq_true, if_true]
      exact ⟨Nat.dvd_of_mod_eq_zero hm, le_refl v, by omega⟩
    · rw [if_neg (by simpa using hm)]
      refine ⟨?_, by omega, by omega⟩
      have := Nat.mod_lt v (show 0 < 32 by decide)
      omega

/-- Auxiliary induction for C9: `_numRequests` tracks the live-request count over
C9 over the starting number of live requests. -/
theorem runNumRequests_eq_alive (evs : List ReqEvent) :
    ∀ a : Nat, validEvents a evs = true →
      runNumRequests (a : Int) evs = (aliveAfter a evs : Int) := by
  induction evs with
  | nil => intro a _; rfl
  | cons e tl ih =>
    intro a hv
    cases e with
    | create =>
      have h' := ih (a + 1) (by simpa [validEvents] using hv)
      simp only [runNumRequests, numRequestsStep, aliveAfter]
      rw [show ((a : Int) + 1) = ((a + 1 : Nat) : Int) by push_cast; ring]
      exact h'
    | destroy =>
      simp only [validEvents, Bool.and_eq_true, decide_eq_true_eq] at hv
      have ha := hv.1
      have h' := ih (a - 1) hv.2
      simp only [runNumRequests, numRequestsStep, aliveAfter]
      rw [show ((a : Int) - 1) = ((a - 1 : Nat) : Int) by omega]
      exact h'
    | otherOp =>
      have h' := ih a (by simpa [validEvents] using hv)
      simpa [runNumRequests, numRequestsStep, aliveAfter] using h'

/-- C9: `CreateInferRequest` increments `_numRequests` once, the destructor
decrements it once, no other request operation touches it, so after any valid
sequence of constructions, destructions and other operations the counter
equals the number of requests currently alive. -/
theorem C9_numRequests_live_count (evs : List ReqEvent)
    (h : validEvents 0 evs = true) :
    runNumRequests 0 evs = (aliveAfter 0 evs : Int) :=
  runNumRequests_eq_alive evs 0 h

/-- Witness for C9 on a concrete event sequence. -/
theorem C9_witness :
    runNumRequests 0
        [ReqEvent.create, ReqEvent.create, ReqEvent.otherOp, ReqEvent.destroy] =
      (aliveAfter 0
        [ReqEvent.create, ReqEvent.create, ReqEvent.otherOp, ReqEvent.destroy] : Int) :=
  C9_numRequests_live_count _ (by decide)

/-- C10: the input-node branch of `changeDefaultPtr` leaves every child edge
data handle unchanged when some child is constant, an optimized Concat, a
Split, in-place, or shares memory with one of its own child edges; the
handles are replaced by the user pointer only when no child blocks it. -/
theorem C10_changeDefaultPtrInput (n : InputNode) (ptr : Nat) :
    (n.childEdges.any childBlocksInPlace = true → changeDefaultPtrInput n ptr = n) ∧
    (changeDefaultPtrInput n ptr ≠ n →
       n.childEdges.all (fun ce => !(childBlocksInPlace ce)) = true) ∧
    (∀ e0 tl, n.childEdges = e0 :: tl → e0.mem ≠ ptr →
       n.childEdges.all (fun ce => !(childBlocksInPlace ce)) = true →
       changeDefaultPtrInput n ptr =
         { childEdges := n.childEdges.map (fun ce => { ce with mem := ptr }) }) := by
  obtain ⟨edges⟩ := n
  refine ⟨?_, ?_, ?_⟩
  · intro hany
    cases edges with
    | nil => rfl
    | cons e0 tl =>
      simp only [changeDefaultPtrInput]
      by_cases hmem : e0.mem = ptr
      · rw [if_pos (by simp [hmem])]
      · rw [if_neg (by simp [hmem]), if_neg]
        simp only [List.all_eq_true, Bool.not_eq_true']
        intro hall
        obtain ⟨ce, hmem', hbad⟩ := List.any_eq_true.mp hany
        exact absurd (hall ce hmem') (by simp [hbad])
  · intro hchanged
    by_cases hall :
        (InputNode.mk edges).childEdges.all (fun ce => !(childBlocksInPlace ce)) = true
    · exact hall
    · exfalso
      apply hchanged
      cases edges with
      | nil => rfl
      | cons e0 tl =>
        simp only [changeDefaultPtrInput]
        by_cases hmem : e0.mem = ptr
        · rw [if_pos (by simp [hmem])]
        · rw [if_neg (by simp [hmem]), if_neg (by exact hall)]
  · intro e0 tl hce hmem hall
    simp only at hce
    subst hce
    simp only [changeDefaultPtrInput]
    rw [if_neg (by simp [hmem]), if_pos (by exact hall)]

/-- C4: `LegacyInferRequest::SetBlob` throws NotFound on an empty name,
NotAllocated on a null blob, NotAllocated on a non-compound blob with a null
buffer, and throws on a zero-size blob; in each of these error cases the
request state (`_inputs`, `_outputs`, `externalPtr`) is unchanged. -/
theorem C4_legacySetBlob_errors (env : SetBlobEnv) (st : ReqState) (name : String)
    (data : Option BlobM) :
    (name = "" → legacySetBlob env st name data = (some IEErr.notFound, st)) ∧
    (name ≠ "" → data = none →
       legacySetBlob env st name data = (some IEErr.notAllocated, st)) ∧
    (∀ b, name ≠ "" → data = some b → b.isCompound = false → b.buffer = none →
       legacySetBlob env st name data = (some IEErr.notAllocated, st)) ∧
    (∀ b, name ≠ "" → data = some b → ¬(b.isCompound = false ∧ b.buffer = none) →
       b.blobSize = 0 →
       legacySetBlob env st name data = (some IEErr.general, st)) := by
  refine ⟨?_, ?_, ?_, ?_⟩
  · intro h
    simp [legacySetBlob, h]
  · intro h hd
    subst hd
    simp [legacySetBlob, h]
  · intro b h hd hc hb
    subst hd
    simp [legacySetBlob, h, hc, hb]
  · intro b h hd hcb hsz
    subst hd
    simp [legacySetBlob, h, hcb, hsz]
